import Mathlib

/-!
Shallow embedding of the `twitchgo` IRC client library (Go) and proofs about
its message parser, tag decoder, handshake checklist, event dispatcher and
command sender.

Go strings are modelled as `List Char` (the repository only handles ASCII
protocol text, where Go's byte indexing and rune indexing agree).  Go library
functions used by the repository (`strings.Split`, `strings.Index`,
`strings.TrimSuffix`, `strings.CutPrefix`, `strings.ReplaceAll`,
`strings.Join`, `strconv.Atoi`, `time.Unix`) are embedded as executable Lean
functions with the documented Go semantics.  Go slice expressions and string
indexing, which can panic at run time, are embedded with an explicit
`Except GoPanic` result.
-/

namespace Twitchgo

/-- Coerce a Lean string literal to the `List Char` model of Go strings. -/
def gostr (s : String) : List Char := s.data

/-- Go run-time panics raised by string indexing / slicing. -/
inductive GoPanic
  | indexOutOfRange
  | sliceOutOfRange
deriving DecidableEq

/-- Worker for `goSplit`: scans the string left to right, splitting at each
leftmost non-overlapping occurrence of `sep` (the semantics of Go
`strings.Split` for a non-empty separator). `acc` holds the current chunk,
reversed. Each step consumes at least one character, so structural recursion
on a fuel counter initialised to the string length never hits the fuel-out
arm. -/
def goSplitAux (sep : List Char) : Nat → List Char → List Char → List (List Char)
  | _, [], acc => [acc.reverse]
  | 0, s, acc => [acc.reverse ++ s]
  | fuel + 1, c :: rest, acc =>
    if sep ≠ [] ∧ sep.isPrefixOf (c :: rest) then
      acc.reverse :: goSplitAux sep fuel (rest.drop (sep.length - 1)) []
    else
      goSplitAux sep fuel rest (c :: acc)

/-- Go `strings.Split(s, sep)` for non-empty `sep` (the repository never
splits on an empty separator). Always returns at least one chunk. -/
def goSplit (sep s : List Char) : List (List Char) := goSplitAux sep s.length s []

/-- Go `strings.Join(parts, sep)`. -/
def goJoin (sep : List Char) (parts : List (List Char)) : List Char :=
  List.intercalate sep parts

/-- Index of the first occurrence of `sub` in `s`, as an `Option`. -/
def goIndexOf : List Char → List Char → Option Nat
  | [], sub => if sub = [] then some 0 else none
  | c :: t, sub =>
    if sub.isPrefixOf (c :: t) then some 0
    else (goIndexOf t sub).map (· + 1)

/-- Go `strings.Index(s, sub)`: first occurrence, `-1` when absent. -/
def goIndex (s sub : List Char) : Int :=
  match goIndexOf s sub with
  | some i => (i : Int)
  | none => -1

/-- Go slice expression `s[lo:hi]`: panics unless `0 ≤ lo ≤ hi ≤ len(s)`. -/
def goSlice (s : List Char) (lo hi : Int) : Except GoPanic (List Char) :=
  if 0 ≤ lo ∧ lo ≤ hi ∧ hi ≤ (s.length : Int) then
    .ok ((s.take hi.toNat).drop lo.toNat)
  else .error .sliceOutOfRange

/-- Go string indexing `s[i]`: panics when out of range. -/
def goByte (s : List Char) (i : Nat) : Except GoPanic Char :=
  match s.get? i with
  | some c => .ok c
  | none => .error .indexOutOfRange

/-- Go `strings.TrimSuffix(s, suffix)`: removes at most one copy of
`suffix`. -/
def goTrimSuffix (s suffix : List Char) : List Char :=
  if suffix.isSuffixOf s then s.take (s.length - suffix.length) else s

/-- Go `strings.CutPrefix(s, prefix)`. -/
def goCutPrefix (s pre : List Char) : List Char × Bool :=
  if pre.isPrefixOf s then (s.drop pre.length, true) else (s, false)

/-- Go `strings.ReplaceAll(s, old, new)` for non-empty `old`
(`Join(Split(s, old), new)`). -/
def goReplaceAll (s old new : List Char) : List Char :=
  goJoin new (goSplit old s)

/-- Decimal digit accumulator for `goAtoi`. -/
def digitsToNatAux : List Char → Nat → Option Nat
  | [], acc => some acc
  | c :: rest, acc =>
    if c.isDigit then digitsToNatAux rest (acc * 10 + (c.toNat - 48)) else none

/-- Value of a non-empty all-digit string. -/
def digitsToNat (s : List Char) : Option Nat :=
  if s = [] then none else digitsToNatAux s 0

/-- Go `strconv.Atoi`: optional sign then one or more digits (the 64-bit
overflow error is not modelled; all values in the claims are small). -/
def goAtoi (s : List Char) : Option Int :=
  match s with
  | '+' :: rest => (digitsToNat rest).map Int.ofNat
  | '-' :: rest => (digitsToNat rest).map (fun n => -(Int.ofNat n))
  | _ => (digitsToNat s).map Int.ofNat

/-- Go `time.Unix(sec, nsec)` as an instant measured in nanoseconds since the
Unix epoch. -/
def goTimeUnix (sec nsec : Int) : Int := sec * 1000000000 + nsec

/-- Truncation of an instant (ns since epoch) to whole seconds: the precision
surviving a `time.RFC3339` format / re-parse round trip. -/
def truncSec (ns : Int) : Int := (Int.fdiv ns 1000000000) * 1000000000

/-! ## Tag decoder (`ircMessageTags.go`) -/

/-- Go type kind of an `IRCMessageTags` struct field, as inspected through
`reflect` in `formatRawIRCTag`. -/
inductive FieldKind
  | str
  | int
  | bool
  | strSlice
  | time
deriving DecidableEq

/-- A decoded Go field value. `time` carries an instant in nanoseconds since
the Unix epoch. -/
inductive GoVal
  | str (s : List Char)
  | int (n : Int)
  | bool (b : Bool)
  | strList (l : List (List Char))
  | time (ns : Int)
deriving DecidableEq

/-- The decoded tag record. The Go struct `IRCMessageTags` is modelled as an
association list from json tag name to decoded value; a field absent from the
list holds its Go zero value. The zero record is `[]`. -/
abbrev IRCMessageTags := List (List Char × GoVal)

/-- The fields of the Go struct `IRCMessageTags`, in declaration order: json
tag name paired with the field's type kind. `formatRawIRCTag` scans this list
for the first field whose json tag equals the wire key. -/
def ircTagFields : List (List Char × FieldKind) :=
  [ (gostr "ban-duration", .int)
  , (gostr "room-id", .str)
  , (gostr "target-user-id", .str)
  , (gostr "tmi-sent-ts", .time)
  , (gostr "login", .str)
  , (gostr "target-msg-id", .str)
  , (gostr "badge-info", .strSlice)
  , (gostr "badges", .strSlice)
  , (gostr "emote-sets", .strSlice)
  , (gostr "display-name", .str)
  , (gostr "color", .str)
  , (gostr "user-id", .str)
  , (gostr "user-type", .str)
  , (gostr "turbo", .bool)
  , (gostr "subscriber", .bool)
  , (gostr "mod", .bool)
  , (gostr "vip", .bool)
  , (gostr "bits", .int)
  , (gostr "emotes", .strSlice)
  , (gostr "id", .str)
  , (gostr "pinned-chat-paid-amount", .str)
  , (gostr "pinned-chat-paid-currency", .str)
  , (gostr "pinned-chat-paid-exponent", .str)
  , (gostr "pinned-chat-paid-level", .str)
  , (gostr "pinned-chat-paid-is-system-message", .bool)
  , (gostr "reply-parent-msg-id", .str)
  , (gostr "reply-parent-user-id", .str)
  , (gostr "reply-parent-user-login", .str)
  , (gostr "reply-parent-display-name", .str)
  , (gostr "reply-parent-msg-body", .str)
  , (gostr "reply-thread-parent-msg-id", .str)
  , (gostr "reply-thread-parent-user-login", .str)
  , (gostr "reply-thread-parent-display-name", .str)
  , (gostr "emote-only", .bool)
  , (gostr "followers-only", .int)
  , (gostr "r9k", .bool)
  , (gostr "slow", .int)
  , (gostr "subs-only", .bool)
  , (gostr "msg-id", .str)
  , (gostr "system-msg", .str)
  , (gostr "msg-param-cumulative-months", .str)
  , (gostr "msg-param-displayName", .str)
  , (gostr "msg-param-login", .str)
  , (gostr "msg-param-months", .str)
  , (gostr "msg-param-promo-gift-total", .str)
  , (gostr "msg-param-promo-name", .str)
  , (gostr "msg-param-recipient-display-name", .str)
  , (gostr "msg-param-recipient-id", .str)
  , (gostr "msg-param-recipient-user-name", .str)
  , (gostr "msg-param-sender-login", .str)
  , (gostr "msg-param-sender-name", .str)
  , (gostr "msg-param-should-share-streak", .str)
  , (gostr "msg-param-streak-months", .str)
  , (gostr "msg-param-sub-plan", .str)
  , (gostr "msg-param-sub-plan-name", .str)
  , (gostr "msg-param-viewerCount", .str)
  , (gostr "msg-param-ritual-name", .str)
  , (gostr "msg-param-threshold", .str)
  , (gostr "msg-param-gift-months", .str)
  , (gostr "message-id", .str)
  , (gostr "thread-id", .str)
  , (gostr "client-nonce", .str)
  , (gostr "flags", .str)
  , (gostr "custom-reward-id", .str)
  , (gostr "msg-param-color", .str)
  , (gostr "msg-param-goal-contribution-type", .str)
  , (gostr "first-msg", .bool)
  , (gostr "returning-chatter", .bool) ]

/-- The JSON text `formatRawIRCTag` splices after the `"key":` prefix,
kept structured so the `json.Unmarshal` model can classify it:
`raw` is spliced with no quotes (the `reflect.Int` branch), `quoted` is
wrapped in `"` with the characters spliced verbatim, `arr` is
`["…"]` with each `,` of the value turned into `","`, and `timeLit` is the
RFC 3339 rendering of the given instant, quoted. -/
inductive JsonText
  | raw (cs : List Char)
  | quoted (cs : List Char)
  | boolLit (b : Bool)
  | arr (cs : List Char)
  | timeLit (ns : Int)
deriving DecidableEq

/-- One `"key":value` member of the JSON object that `ParseRawIRCTags`
assembles. -/
structure JsonFrag where
  key : List Char
  val : JsonText
deriving DecidableEq

/-- Embedding of `formatRawIRCTag` (`ircMessageTags.go`): split the pair on
`=`; anything but exactly one `=` yields `"raw":""`.  A known key first has
`\s` turned into spaces and `\` doubled in its value, then is rendered by the
field's type kind; the `time.Time` branch parses the value with
`strconv.Atoi` and on success renders the instant `time.Unix(0, ts)`, on
failure it falls back to the quoted raw string.  An unknown key is rendered
as a quoted string of the unescaped value. -/
def formatRawIRCTag (raw : List Char) : JsonFrag :=
  match goSplit (gostr "=") raw with
  | [k, v] =>
    match (ircTagFields.find? (fun p => p.1 = k)).map (·.2) with
    | some kind =>
      let v := goReplaceAll v (gostr "\\s") (gostr " ")
      let v := goReplaceAll v (gostr "\\") (gostr "\\\\")
      match kind with
      | .strSlice => ⟨k, .arr v⟩
      | .int => ⟨k, .raw v⟩
      | .bool => ⟨k, .boolLit (v = gostr "1" ∨ v = gostr "true")⟩
      | .str => ⟨k, .quoted v⟩
      | .time =>
        match goAtoi v with
        | none => ⟨k, .quoted v⟩
        | some ts => ⟨k, .timeLit (goTimeUnix 0 ts)⟩
    | none => ⟨k, .quoted v⟩
  | _ => ⟨raw, .quoted []⟩

/-- Model of Go `encoding/json` string decoding applied to spliced content:
scans for invalid content (an unescaped `"`, a lone or unknown escape, a
control character) and returns the unescaped characters.  `\uXXXX` escapes
are not modelled (the repository never produces them: backslashes in tag
values are doubled before splicing). -/
def jsonStringScan : List Char → Option (List Char)
  | [] => some []
  | ['\\'] => none
  | '\\' :: e :: rest =>
    let dec : Option Char :=
      if e = '"' then some '"'
      else if e = '\\' then some '\\'
      else if e = '/' then some '/'
      else if e = 'b' then some (Char.ofNat 8)
      else if e = 'f' then some (Char.ofNat 12)
      else if e = 'n' then some '\n'
      else if e = 'r' then some '\r'
      else if e = 't' then some '\t'
      else none
    match dec with
    | none => none
    | some c => (jsonStringScan rest).map (c :: ·)
  | c :: rest =>
    if c = '"' ∨ c.toNat < 32 then none
    else (jsonStringScan rest).map (c :: ·)

/-- Whether a digit run is a valid JSON unsigned integer literal (`0`, or a
nonzero digit followed by digits). -/
def jsonUIntOk : List Char → Bool
  | [] => false
  | c :: rest =>
    if c = '0' then rest.isEmpty else c.isDigit && rest.all (·.isDigit)

/-- Model of Go `encoding/json` decoding of unquoted spliced content into an
`int` field: the content must be a JSON integer literal (optional `-`, no
fraction, no exponent, no leading zeros); anything else — including the bare
words a malformed tag value splices — is an unmarshal error (`none`). -/
def jsonIntParse (s : List Char) : Option Int :=
  match s with
  | '-' :: rest =>
    if jsonUIntOk rest then (digitsToNat rest).map (fun n => -(Int.ofNat n)) else none
  | _ => if jsonUIntOk s then (digitsToNat s).map Int.ofNat else none

/-- Decode one spliced JSON value: bare content must parse as an integer,
quoted content must scan as a valid JSON string, array content is the
comma-separated chunks each scanned as a string, and an RFC 3339 time
round-trips at whole-second precision. -/
def decodeValue : JsonText → Option GoVal
  | .raw cs => (jsonIntParse cs).map GoVal.int
  | .quoted cs => (jsonStringScan cs).map GoVal.str
  | .boolLit b => some (GoVal.bool b)
  | .arr cs => ((goSplit (gostr ",") cs).mapM jsonStringScan).map GoVal.strList
  | .timeLit ns => some (GoVal.time (truncSec ns))

/-- Whether a decoded JSON value may be stored in a field of the given Go
type kind (Go `json.Unmarshal` type checking). -/
def kindMatches : FieldKind → GoVal → Bool
  | .str, .str _ => true
  | .int, .int _ => true
  | .bool, .bool _ => true
  | .strSlice, .strList _ => true
  | .time, .time _ => true
  | _, _ => false

/-- Store a decoded value into the tag record (later duplicate keys
overwrite). -/
def assignTag (t : IRCMessageTags) (key : List Char) (v : GoVal) : IRCMessageTags :=
  if t.any (fun p => p.1 = key) then
    t.map (fun p => if p.1 = key then (key, v) else p)
  else t ++ [(key, v)]

/-- Decode one object member: the key must scan as a JSON string, the value
must decode; a key matching no struct field is validated then ignored, a
matching field type-checks the value and stores it. Any failure is an
unmarshal error for the whole object. -/
def unmarshalFrag (t : IRCMessageTags) (f : JsonFrag) : Option IRCMessageTags := do
  let k ← jsonStringScan f.key
  let v ← decodeValue f.val
  match (ircTagFields.find? (fun p => p.1 = k)).map (·.2) with
  | none => some t
  | some kind => if kindMatches kind v then some (assignTag t k v) else none

/-- Model of `json.Unmarshal` on the object `ParseRawIRCTags` assembles:
decode the members left to right into the zero record; any invalid member
fails the whole unmarshal. -/
def unmarshalTags (frags : List JsonFrag) : Option IRCMessageTags :=
  frags.foldlM unmarshalFrag []

/-- Embedding of `ParseRawIRCTags` (`ircMessageTags.go`): split the tag
segment on `;`, render each pair with `formatRawIRCTag` into one JSON object,
and unmarshal it; if the unmarshal errors the function logs and returns the
zero record. -/
def ParseRawIRCTags (raw : List Char) : IRCMessageTags :=
  match unmarshalTags ((goSplit (gostr ";") raw).map formatRawIRCTag) with
  | some t => t
  | none => []

/-! ## Message model and parser (`receive.go`, `twitch.go`) -/

/-- The Go struct `IRCUser`. -/
structure IRCUser where
  Nickname : List Char
  Host : List Char
deriving DecidableEq

/-- The Go struct `IRCMessageCommand`. -/
structure IRCMessageCommand where
  Name : List Char
  Arguments : List (List Char)
  Data : List Char
deriving DecidableEq

/-- The Go struct `IRCMessage`.  `Source` is a Go pointer, `none` when never
assigned. -/
structure IRCMessage where
  Raw : List Char
  Tags : IRCMessageTags
  Source : Option IRCUser
  Command : IRCMessageCommand
deriving DecidableEq

/-- Embedding of the tag block of `parseMessage`: when the line starts with
`@`, `i := strings.Index(raw, " ")` and the tags are parsed from `raw[1:i]`
(a slice that panics when there is no space, since then `i = -1`), and the
line becomes `raw[i+1:]`. -/
def parseTagsStep (raw : List Char) : Except GoPanic (IRCMessageTags × List Char) :=
  if raw.head? = some '@' then
    match goSlice raw 1 (goIndex raw (gostr " ")) with
    | .error e => .error e
    | .ok seg =>
      match goSlice raw (goIndex raw (gostr " ") + 1) raw.length with
      | .error e => .error e
      | .ok rest => .ok (ParseRawIRCTags seg, rest)
  else .ok ([], raw)

/-- Embedding of the source block of `parseMessage`: `raw[0]` is read (an
index that panics on an empty remainder); when it is `:`, the segment
`raw[1:i]` up to the first space (a slice that panics when there is no
space) is split on `!`; a two-part split stores `source[0]` in both
`Nickname` and `Host` — exactly as the Go source does — and any other split
stores `source[0]` as a bare host. -/
def parseSourceStep (raw : List Char) : Except GoPanic (Option IRCUser × List Char) :=
  match goByte raw 0 with
  | .error e => .error e
  | .ok c =>
    if c = ':' then
      match goSlice raw 1 (goIndex raw (gostr " ")) with
      | .error e => .error e
      | .ok seg =>
        match goSlice raw (goIndex raw (gostr " ") + 1) raw.length with
        | .error e => .error e
        | .ok rest =>
          match goSplit (gostr "!") seg with
          | [a, _] => .ok (some ⟨a, a⟩, rest)
          | parts => .ok (some ⟨[], parts.headD []⟩, rest)
    else .ok (none, raw)

/-- Embedding of the command block of `parseMessage`: split the remainder on
`" :"`, split the first chunk on spaces into the name and arguments, and
rejoin the rest as the trailing data. -/
def parseCommand (raw : List Char) : IRCMessageCommand :=
  let data := goSplit (gostr " :") raw
  let args := goSplit (gostr " ") (data.headD [])
  { Name := args.headD []
    Arguments := if 1 < args.length then args.tail else []
    Data := if 1 < data.length then goJoin (gostr " :") data.tail else [] }

/-- The tail of `parseMessage` after the tag block: the source block
followed by the (total) command block, building the message with the
original raw line. -/
def parseAfterTags (raw0 : List Char) (tags : IRCMessageTags) (raw1 : List Char) :
    Except GoPanic (Option IRCMessage) :=
  match parseSourceStep raw1 with
  | .error e => .error e
  | .ok (source, raw2) =>
    .ok (some { Raw := raw0, Tags := tags, Source := source, Command := parseCommand raw2 })

/-- Embedding of `parseMessage` (`receive.go`): `nil` for an empty line,
otherwise the tag, source and command blocks in order; the `Except` layer
carries the Go panics the slice and index expressions can raise. -/
def parseMessage (raw : List Char) : Except GoPanic (Option IRCMessage) :=
  if raw.length = 0 then .ok none
  else
    match parseTagsStep raw with
    | .error e => .error e
    | .ok (tags, raw1) => parseAfterTags raw tags raw1

/-- The lines on which `parseMessage` terminates normally: empty lines, and
lines where a leading `@` tag prefix is followed by a space, the remainder
after tag consumption is non-empty, and a leading `:` on that remainder is
followed by a space within it. -/
def goodLine (raw : List Char) : Bool :=
  raw.isEmpty ||
    match (if raw.head? = some '@' then
             match goIndexOf raw (gostr " ") with
             | none => none
             | some i => some (raw.drop (i + 1))
           else some raw) with
    | none => false
    | some rest =>
      !rest.isEmpty && (!(rest.head? = some ':' : Bool) || (goIndexOf rest (gostr " ")).isSome)

/-! ## Event dispatcher (`receive.go`, `events.go`) -/

/-- Whether `ircCallbackEventMap` (populated once in the `init` function of
`events.go`) has a non-nil adapter for the given command name. -/
def ircCallbackEventMap (name : List Char) : Bool :=
  name = gostr "JOIN" || name = gostr "PART" || name = gostr "PRIVMSG" ||
    name = gostr "GLOBALUSERSTATE" || name = gostr "ROOMSTATE" || name = gostr "*"

/-- An observable action of the dispatcher: a command written to the session
(`SendCommand`) or one registered handler invoked through a command's
adapter. -/
inductive DispatchAction
  | send (cmd : List Char)
  | invoke (handler : Nat)
deriving DecidableEq

/-- Embedding of `(*IRCMessage).handle`: a `nil` message does nothing; a
`PING` sends `PONG` and returns; otherwise, when the command has an adapter
in `ircCallbackEventMap`, the handlers registered for the command run in
registration order and then the wildcard handlers run in registration order;
when the command has no adapter the dispatcher returns at the nil check
before either loop.  `events` is the session's registry, mapping a command
name to its registered handlers (as opaque identifiers) in registration
order. -/
def handle (m : Option IRCMessage) (events : List Char → List Nat) : List DispatchAction :=
  match m with
  | none => []
  | some msg =>
    if msg.Command.Name = gostr "PING" then [.send (gostr "PONG")]
    else if ircCallbackEventMap msg.Command.Name then
      ((events msg.Command.Name).map .invoke) ++
        (if ircCallbackEventMap (gostr "*") then (events (gostr "*")).map .invoke else [])
    else []

/-! ## Command sender (`send.go`) -/

/-- Embedding of `SendCommand` (`send.go`): strip at most one trailing `\n`,
append `\r\n`, and write the result unless it is the bare two-character
terminator; `none` means no bytes are written to the socket. -/
def sendCommandBytes (cmd : List Char) : Option (List Char) :=
  let c := goTrimSuffix cmd (gostr "\n") ++ gostr "\r\n"
  if c.length = 2 then none else some c

/-- Embedding of `SendMessage` (`send.go`): cut one leading `#` from the
channel and format `PRIVMSG #<channel> :<text>`, the command string then
passed to `SendCommand`. -/
def sendMessageLine (channel msg : List Char) : List Char :=
  let ch := (goCutPrefix channel (gostr "#")).1
  gostr "PRIVMSG" ++ gostr " #" ++ ch ++ gostr " :" ++ msg

/-! ## Handshake (`twitch.go`) -/

/-- Embedding of `parseInitMessage` (`twitch.go`), applied to an already
parsed line: the checklist byte contributed by the message, and whether the
invalid-credentials notice was recognised (`ErrInvalidToken`).  The
`GLOBALUSERSTATE` and default cases also forward the message to the
dispatcher, which does not affect the checklist. -/
def parseInitCheck (m : Option IRCMessage) : Nat × Bool :=
  match m with
  | none => (0, false)
  | some msg =>
    if msg.Command.Name = gostr "CAP" then (1, false)
    else if msg.Command.Name = gostr "001" then (2, false)
    else if msg.Command.Name = gostr "002" then (4, false)
    else if msg.Command.Name = gostr "003" then (8, false)
    else if msg.Command.Name = gostr "004" then (16, false)
    else if msg.Command.Name = gostr "375" then (32, false)
    else if msg.Command.Name = gostr "372" then (64, false)
    else if msg.Command.Name = gostr "GLOBALUSERSTATE" then (128, false)
    else if msg.Command.Name = gostr "NOTICE" ∧ msg.Command.Data = gostr "Improperly formatted auth"
      then (0, true)
    else (0, false)

/-- The handshake checklist byte of `waitForInit` after observing a sequence
of parsed replies: `checklist |= check` for each reply, starting from 0. -/
def checklistFold (l : List (Option IRCMessage)) : Nat :=
  l.foldl (fun c m => c ||| (parseInitCheck m).1) 0

/-- A reply of the given command name occurs in the sequence. -/
def obs (l : List (Option IRCMessage)) (name : List Char) : Prop :=
  ∃ msg : IRCMessage, some msg ∈ l ∧ msg.Command.Name = name

/-- Outcome of the `waitForInit` loop body over a reply sequence: still
collecting bits, completed (checklist reached 255 with no error), or failed
with `ErrInvalidToken`. -/
inductive InitResult
  | pending (checklist : Nat)
  | done
  | failed
deriving DecidableEq

/-- Embedding of the `waitForInit` loop (`twitch.go`): fold the replies
through `parseInitMessage`, or-ing the checklist, and stop at the first
error or at full completion (`checklist == 255`). -/
def runInit : List (Option IRCMessage) → Nat → InitResult
  | [], c => .pending c
  | m :: rest, c =>
    let r := parseInitCheck m
    let c2 := c ||| r.1
    if r.2 then .failed
    else if c2 = 255 then .done
    else runInit rest c2

/-- Errors `Connect` can return from the handshake. -/
inductive GoError
  | invalidToken
  | readTimeout
deriving DecidableEq

/-- Embedding of the tail of `Connect` (`twitch.go`): when `waitForInit`
returns an error the socket is closed and the error returned; on success the
listener starts with the socket open.  An exhausted reply sequence is
modelled as the 5-second read deadline expiring, which surfaces as a read
error from `readAll`.  The pair is (returned error, socket closed). -/
def connectResult (l : List (Option IRCMessage)) : Option GoError × Bool :=
  match runInit l 0 with
  | .failed => (some .invalidToken, true)
  | .done => (none, false)
  | .pending _ => (some .readTimeout, true)

/-! ## Theorems -/

/-- C1 (counterexample): the parser is not total — the line `"@x"`, which
begins with `@` but contains no space, makes `strings.Index` return `-1` and
the slice `raw[1:-1]` panic, so `parseMessage` raises instead of returning a
`Message`. -/
theorem parseMessage_panics_without_space :
    parseMessage (gostr "@x") = .error GoPanic.sliceOutOfRange := by rfl

/-- C2: on the line `":a!b c"`, whose source segment `a!b` contains exactly
one `!`, the parsed `Source` stores the part before the `!` in both
`Nickname` and `Host` (`source[0]` twice, as the Go source literally does),
so `Host` is `"a"` and not the part after the `!` (`"b"`) that the claim
specifies. -/
theorem parseMessage_source_host_bug :
    parseMessage (gostr ":a!b c") =
      .ok (some { Raw := gostr ":a!b c", Tags := [],
                  Source := some { Nickname := gostr "a", Host := gostr "a" },
                  Command := { Name := gostr "c", Arguments := [], Data := [] } }) ∧
    some ({ Nickname := gostr "a", Host := gostr "a" } : IRCUser) ≠
      some ({ Nickname := gostr "a", Host := gostr "b" } : IRCUser) := by
  exact ⟨by rfl, by decide⟩

/-- C3: for the timestamp tag `tmi-sent-ts=1000` the code hands the parsed
value `1000` to `time.Unix(0, 1000)` — the instant 1000 *nanoseconds* after
the Unix epoch — instead of the instant 1000 milliseconds
(`1000 * 1000000` ns) after the epoch that the claim specifies; the
second-precision RFC 3339 round trip then decodes it as the epoch itself.
The non-integer value `abc` does take the logged raw-string fallback. -/
theorem formatRawIRCTag_timestamp_nanoseconds_bug :
    formatRawIRCTag (gostr "tmi-sent-ts=1000") =
      ⟨gostr "tmi-sent-ts", .timeLit (goTimeUnix 0 1000)⟩ ∧
    goTimeUnix 0 1000 = 1000 ∧ (1000 : Int) ≠ 1000 * 1000000 ∧
    formatRawIRCTag (gostr "tmi-sent-ts=abc") =
      ⟨gostr "tmi-sent-ts", .quoted (gostr "abc")⟩ ∧
    ParseRawIRCTags (gostr "tmi-sent-ts=1000") =
      [(gostr "tmi-sent-ts", GoVal.time 0)] := by
  exact ⟨by rfl, by rfl, by decide, by rfl, by rfl⟩

/-- C4 (counterexample): in the segment `ban-duration=abc;room-id=123` the
malformed integer is spliced into the JSON unquoted, the unmarshal of the
whole object fails, and `ParseRawIRCTags` returns the zero record — the
well-formed `room-id` pair, which decodes fine on its own, is discarded, and
no field falls back to the raw string. -/
theorem parseTags_malformed_int_discards_segment :
    ParseRawIRCTags (gostr "ban-duration=abc;room-id=123") = [] ∧
    ParseRawIRCTags (gostr "room-id=123") = [(gostr "room-id", GoVal.str (gostr "123"))] := by
  exact ⟨by rfl, by rfl⟩

/-- C4 (amended): tag decoding never raises, but a non-integer value for an
integer-kind field does not fall back to the raw string — it invalidates the
assembled JSON and the whole segment decodes to the zero record, every other
pair included; with a valid integer value every pair of the same segment
decodes into its field. -/
theorem parseTags_malformed_int_amended :
    ParseRawIRCTags (gostr "ban-duration=abc;room-id=123") = [] ∧
    ParseRawIRCTags (gostr "ban-duration=5;room-id=123") =
      [(gostr "ban-duration", GoVal.int 5), (gostr "room-id", GoVal.str (gostr "123"))] := by
  exact ⟨by rfl, by rfl⟩

/-- C6 (counterexample): a `NOTICE` message is not the keep-alive probe and
has a registered wildcard handler, yet the dispatcher invokes nothing: the
adapter lookup for `NOTICE` in `ircCallbackEventMap` is nil and `handle`
returns before the wildcard loop. -/
theorem handle_unknown_command_skips_wildcard :
    handle (some { Raw := [], Tags := [], Source := none,
                   Command := { Name := gostr "NOTICE", Arguments := [], Data := [] } })
        (fun n => if n = gostr "*" then [7] else []) = [] ∧
    (fun n => if n = gostr "*" then [7] else []) (gostr "*") = [7] ∧
    (gostr "NOTICE") ≠ (gostr "PING") := by
  exact ⟨by rfl, by rfl, by decide⟩

/-- C9 (counterexample): `SendCommand` strips at most one trailing `\n`, so
the non-empty command `"x\r\n\n"` is written as `"x\r\n\r\n"` — bytes that
contain a doubled CRLF line ending and do not end in exactly one CRLF. -/
theorem sendCommand_doubled_crlf :
    sendCommandBytes (gostr "x\r\n\n") = some (gostr "x" ++ gostr "\r\n" ++ gostr "\r\n") ∧
    (gostr "\r\n" ++ gostr "\r\n") <:+ (gostr "x" ++ gostr "\r\n" ++ gostr "\r\n") := by
  exact ⟨by rfl, by decide⟩

/-- C6 (amended): for a dispatched message that is not the keep-alive probe,
when the command name has an adapter in `ircCallbackEventMap` the dispatcher
invokes its registered handlers in registration order followed by every
wildcard handler in registration order; for any other command name it
invokes nothing, returning before the wildcard pass. -/
theorem handle_dispatch_order_amended (msg : IRCMessage) (events : List Char → List Nat)
    (h : msg.Command.Name ≠ gostr "PING") :
    handle (some msg) events =
      if ircCallbackEventMap msg.Command.Name then
        (events msg.Command.Name).map DispatchAction.invoke ++
          (events (gostr "*")).map DispatchAction.invoke
      else [] := by
  have hw : ircCallbackEventMap (gostr "*") = true := by decide
  simp [handle, h, hw]

/-- Witness for C6 (amended) at a concrete `JOIN` message with two specific
handlers and one wildcard handler. -/
theorem handle_dispatch_order_amended_witness :
    (({ Raw := [], Tags := [], Source := none,
        Command := { Name := gostr "JOIN", Arguments := [], Data := [] } } :
        IRCMessage).Command.Name ≠ gostr "PING") ∧
    handle (some { Raw := [], Tags := [], Source := none,
                   Command := { Name := gostr "JOIN", Arguments := [], Data := [] } })
        (fun n => if n = gostr "*" then [7] else if n = gostr "JOIN" then [1, 2] else []) =
      if ircCallbackEventMap (gostr "JOIN") then
        ((fun n => if n = gostr "*" then [7] else if n = gostr "JOIN" then [1, 2] else [])
            (gostr "JOIN")).map DispatchAction.invoke ++
          ((fun n => if n = gostr "*" then [7] else if n = gostr "JOIN" then [1, 2] else [])
            (gostr "*")).map DispatchAction.invoke
      else [] :=
  ⟨by decide, handle_dispatch_order_amended _ _ (by decide)⟩

/-- C7: a received `PING` makes the dispatcher send exactly the `PONG`
command — written to the socket as `"PONG\r\n"` by `SendCommand` — and
invoke no command-specific and no wildcard handler. -/
theorem handle_ping_sends_pong_only (msg : IRCMessage) (events : List Char → List Nat)
    (h : msg.Command.Name = gostr "PING") :
    handle (some msg) events = [.send (gostr "PONG")] ∧
    sendCommandBytes (gostr "PONG") = some (gostr "PONG" ++ gostr "\r\n") ∧
    ∀ a ∈ handle (some msg) events, ∀ k, a ≠ DispatchAction.invoke k := by
  refine ⟨by simp [handle, h], by rfl, ?_⟩
  intro a ha k
  simp [handle, h] at ha
  simp [ha]

/-- Witness for C7 at a concrete `PING` message with a registered handler. -/
theorem handle_ping_sends_pong_only_witness :
    handle (some { Raw := gostr "PING :tmi.twitch.tv", Tags := [], Source := none,
                   Command := { Name := gostr "PING", Arguments := [],
                                Data := gostr "tmi.twitch.tv" } })
        (fun _ => [5]) = [.send (gostr "PONG")] ∧
    sendCommandBytes (gostr "PONG") = some (gostr "PONG" ++ gostr "\r\n") ∧
    ∀ a ∈ handle (some { Raw := gostr "PING :tmi.twitch.tv", Tags := [], Source := none,
                         Command := { Name := gostr "PING", Arguments := [],
                                      Data := gostr "tmi.twitch.tv" } })
        (fun _ => [5]), ∀ k, a ≠ DispatchAction.invoke k :=
  handle_ping_sends_pong_only _ _ (by decide)

/-- C9 (amended): an empty command writes no bytes; whenever `SendCommand`
writes, the bytes are the command with at most one trailing `\n` stripped
and `\r\n` appended — they end in CRLF and are longer than the bare
terminator — but a command ending in several newlines keeps the extra ones,
so the output can contain doubled line endings, and the commands `""` and
`"\n"` write nothing. -/
theorem sendCommand_normalization_amended :
    sendCommandBytes [] = none ∧
    ∀ cmd b, sendCommandBytes cmd = some b →
      b = goTrimSuffix cmd (gostr "\n") ++ gostr "\r\n" ∧
        (gostr "\r\n") <:+ b ∧ 2 < b.length := by
  refine ⟨by rfl, ?_⟩
  intro cmd b h
  rw [sendCommandBytes] at h
  split at h
  · exact absurd h (by simp)
  · rename_i hlen
    obtain rfl : goTrimSuffix cmd (gostr "\n") ++ gostr "\r\n" = b := by
      exact Option.some.inj h
    refine ⟨rfl, List.suffix_append _ _, ?_⟩
    have : (goTrimSuffix cmd (gostr "\n") ++ gostr "\r\n").length =
        (goTrimSuffix cmd (gostr "\n")).length + 2 := by
      simp [gostr]
    omega

/-- Witness for C9 (amended) at the concrete command `"NICK bob"`. -/
theorem sendCommand_normalization_amended_witness :
    sendCommandBytes (gostr "NICK bob") = some (gostr "NICK bob" ++ gostr "\r\n") ∧
    (gostr "NICK bob" ++ gostr "\r\n" = goTrimSuffix (gostr "NICK bob") (gostr "\n") ++ gostr "\r\n" ∧
      (gostr "\r\n") <:+ (gostr "NICK bob" ++ gostr "\r\n") ∧
      2 < (gostr "NICK bob" ++ gostr "\r\n").length) :=
  ⟨by rfl, sendCommand_normalization_amended.2 (gostr "NICK bob") _ (by rfl)⟩

/-- C10: `SendMessage` cuts at most one leading `#` from the channel and
formats `PRIVMSG #<channel> :<text>`, so a channel given without the leading
`#` produces the same outgoing command string as the same channel given with
it. -/
theorem sendMessage_channel_normalization (c m : List Char) (h : ¬ (gostr "#") <+: c) :
    sendMessageLine c m = sendMessageLine (gostr "#" ++ c) m ∧
    sendMessageLine c m = gostr "PRIVMSG" ++ gostr " #" ++ c ++ gostr " :" ++ m := by
  have e1 : goCutPrefix c (gostr "#") = (c, false) := by
    rw [goCutPrefix, if_neg]
    simpa [List.isPrefixOf_iff_prefix] using h
  have e2 : goCutPrefix (gostr "#" ++ c) (gostr "#") = (c, true) := by
    rw [goCutPrefix, if_pos]
    · simp [gostr]
    · rw [List.isPrefixOf_iff_prefix]
      exact List.prefix_append _ _
  constructor
  · rw [sendMessageLine, sendMessageLine, e1, e2]
  · rw [sendMessageLine, e1]

/-- Witness for C10 at the concrete channel `"chan"` and text `"hi"`. -/
theorem sendMessage_channel_normalization_witness :
    sendMessageLine (gostr "chan") (gostr "hi") =
      sendMessageLine (gostr "#" ++ gostr "chan") (gostr "hi") ∧
    sendMessageLine (gostr "chan") (gostr "hi") =
      gostr "PRIVMSG" ++ gostr " #" ++ gostr "chan" ++ gostr " :" ++ gostr "hi" :=
  sendMessage_channel_normalization (gostr "chan") (gostr "hi") (by decide)

/-- Processing a prefix of the reply sequence that neither errors nor
completes leaves `waitForInit` folding the rest from the accumulated
checklist. -/
theorem runInit_append (l2 : List (Option IRCMessage)) :
    ∀ (l1 : List (Option IRCMessage)) (c0 c : Nat), runInit l1 c0 = .pending c →
      runInit (l1 ++ l2) c0 = runInit l2 c := by
  intro l1
  induction l1 with
  | nil =>
    intro c0 c h
    obtain rfl : c0 = c := by
      simpa [runInit] using h
    rfl
  | cons m rest ih =>
    intro c0 c h
    rw [runInit] at h
    rw [List.cons_append, runInit]
    split at h
    · exact absurd h (by simp)
    · split at h
      · exact absurd h (by simp)
      · rename_i h1 h2
        rw [if_neg h1, if_neg h2]
        exact ih _ _ h

/-- C8: whenever the invalid-credentials notice (`NOTICE` with trailing data
exactly `"Improperly formatted auth"`) is observed while the handshake
checklist is still incomplete (the preceding replies left `waitForInit`
pending), `Connect` returns the invalid-token error and the socket is closed
before it returns. -/
theorem connect_invalid_auth_notice (l1 l2 : List (Option IRCMessage)) (msg : IRCMessage)
    (hn : msg.Command.Name = gostr "NOTICE")
    (hd : msg.Command.Data = gostr "Improperly formatted auth")
    (hp : ∃ c, runInit l1 0 = .pending c) :
    connectResult (l1 ++ some msg :: l2) = (some GoError.invalidToken, true) := by
  obtain ⟨c, hc⟩ := hp
  have hpc : parseInitCheck (some msg) = (0, true) := by
    simp only [parseInitCheck]
    rw [hn, hd]
    decide
  rw [connectResult, runInit_append (some msg :: l2) l1 0 c hc, runInit, hpc]
  simp

/-- Witness for C8: the notice arriving as the first reply after a
capability acknowledgment. -/
theorem connect_invalid_auth_notice_witness :
    (∃ c, runInit [some { Raw := [], Tags := [], Source := none,
                          Command := { Name := gostr "CAP", Arguments := [], Data := [] } }] 0 =
      .pending c) ∧
    connectResult
        ([some { Raw := [], Tags := [], Source := none,
                 Command := { Name := gostr "CAP", Arguments := [], Data := [] } }] ++
          some { Raw := [], Tags := [], Source := none,
                 Command := { Name := gostr "NOTICE", Arguments := [],
                              Data := gostr "Improperly formatted auth" } } :: []) =
      (some GoError.invalidToken, true) :=
  ⟨⟨1, by rfl⟩, connect_invalid_auth_notice _ _ _ (by decide) (by decide) ⟨1, by rfl⟩⟩

/-- An index found by `goIndexOf` for a non-empty pattern lies inside the
string. -/
theorem goIndexOf_lt_length {sub : List Char} (hsub : sub ≠ []) :
    ∀ {s : List Char} {i : Nat}, goIndexOf s sub = some i → i < s.length := by
  intro s
  induction s with
  | nil =>
    intro i h
    rw [goIndexOf, if_neg hsub] at h
    exact absurd h (by simp)
  | cons c t ih =>
    intro i h
    rw [goIndexOf] at h
    split at h
    · cases h
      simp
    · obtain ⟨j, hj, rfl⟩ := Option.map_eq_some'.mp h
      have := ih hj
      simp only [List.length_cons]
      omega

/-- If the first occurrence of the pattern is at position 0, the pattern is a
prefix of the string. -/
theorem goIndexOf_cons_zero {c : Char} {t sub : List Char}
    (h : goIndexOf (c :: t) sub = some 0) : sub.isPrefixOf (c :: t) = true := by
  rw [goIndexOf] at h
  split at h
  · assumption
  · obtain ⟨j, -, hj⟩ := Option.map_eq_some'.mp h
    omega

/-- Searching for a space in a line whose first character is not a space
never returns index 0. -/
theorem goIndexOf_space_pos {c : Char} {t : List Char} {i : Nat}
    (h : goIndexOf (c :: t) (gostr " ") = some i) (hc : c ≠ ' ') : 1 ≤ i := by
  rcases Nat.eq_zero_or_pos i with rfl | hp
  · have hpre := goIndexOf_cons_zero h
    have hsp : gostr " " = [' '] := rfl
    rw [hsp, List.isPrefixOf_iff_prefix] at hpre
    rcases List.cons_prefix_cons.mp hpre with ⟨h1, -⟩
    exact absurd h1.symm hc
  · exact hp

/-- A slice `s[1:i]` succeeds when `1 ≤ i ≤ len(s)`. -/
theorem goSlice_one_ok {s : List Char} {i : Nat} (h1 : 1 ≤ i) (h2 : i ≤ s.length) :
    goSlice s 1 (i : Int) = .ok ((s.take i).drop 1) := by
  rw [goSlice, if_pos]
  · simp
  · refine ⟨by omega, by exact_mod_cast h1, by exact_mod_cast h2⟩

/-- A slice `s[i+1:len(s)]` succeeds when `i < len(s)`. -/
theorem goSlice_from_ok {s : List Char} {i : Nat} (h2 : i < s.length) :
    goSlice s ((i : Int) + 1) s.length = .ok (s.drop (i + 1)) := by
  rw [goSlice, if_pos]
  · have ht : ((i : Int) + 1).toNat = i + 1 := by omega
    have hl : ((s.length : Int)).toNat = s.length := by omega
    rw [ht, hl, List.take_length]
  · refine ⟨by omega, by omega, by omega⟩

/-- The slice `s[1:-1]` produced by a failed space search panics. -/
theorem goSlice_neg_one (s : List Char) : goSlice s 1 (-1) = .error .sliceOutOfRange := by
  rw [goSlice, if_neg]
  rintro ⟨-, h, -⟩
  omega

/-- Tag block on a line not starting with `@`: pass through. -/
theorem parseTagsStep_noAt {raw : List Char} (h : ¬raw.head? = some '@') :
    parseTagsStep raw = .ok ([], raw) := by
  rw [parseTagsStep, if_neg h]

/-- Tag block on an `@` line with no space: the slice `raw[1:-1]` panics. -/
theorem parseTagsStep_noSpace {raw : List Char} (h : raw.head? = some '@')
    (hn : goIndexOf raw (gostr " ") = none) :
    parseTagsStep raw = .error .sliceOutOfRange := by
  have hgi : goIndex raw (gostr " ") = -1 := by rw [goIndex, hn]
  rw [parseTagsStep, if_pos h, hgi, goSlice_neg_one]

/-- Tag block on an `@` line with a space at `i`: parse `raw[1:i]` as tags
and continue with `raw[i+1:]`. -/
theorem parseTagsStep_space {raw : List Char} {i : Nat} (h : raw.head? = some '@')
    (hs : goIndexOf raw (gostr " ") = some i) (h1 : 1 ≤ i) (h2 : i < raw.length) :
    parseTagsStep raw =
      .ok (ParseRawIRCTags ((raw.take i).drop 1), raw.drop (i + 1)) := by
  have hgi : goIndex raw (gostr " ") = (i : Int) := by rw [goIndex, hs]
  rw [parseTagsStep, if_pos h, hgi, goSlice_one_ok h1 (le_of_lt h2), goSlice_from_ok h2]

/-- `raw[0]` on the remainder panics when it is empty. -/
theorem parseSourceStep_nil : parseSourceStep [] = .error .indexOutOfRange := rfl

/-- Source block on a remainder not starting with `:`: pass through. -/
theorem parseSourceStep_noColon {c : Char} {t : List Char} (hc : c ≠ ':') :
    parseSourceStep (c :: t) = .ok (none, c :: t) := by
  rw [parseSourceStep]
  simp only [goByte]
  rw [List.get?_cons_zero]
  simp [hc]

/-- Source block on a `:` remainder with no space: the slice panics. -/
theorem parseSourceStep_colon_noSpace {t : List Char}
    (hn : goIndexOf (':' :: t) (gostr " ") = none) :
    parseSourceStep (':' :: t) = .error .sliceOutOfRange := by
  have hgi : goIndex (':' :: t) (gostr " ") = -1 := by rw [goIndex, hn]
  rw [parseSourceStep]
  simp only [goByte, List.get?_cons_zero, hgi, goSlice_neg_one]
  simp

/-- Source block on a `:` remainder with a space at `i ≥ 1`: both slices
succeed and every shape of the `!` split returns normally. -/
theorem parseSourceStep_colon_space {t : List Char} {i : Nat}
    (hs : goIndexOf (':' :: t) (gostr " ") = some i) (h1 : 1 ≤ i)
    (h2 : i < (':' :: t).length) :
    ∃ v, parseSourceStep (':' :: t) = .ok v := by
  have hgi : goIndex (':' :: t) (gostr " ") = (i : Int) := by rw [goIndex, hs]
  rw [parseSourceStep]
  simp only [goByte, List.get?_cons_zero, hgi, goSlice_one_ok h1 (le_of_lt h2),
    goSlice_from_ok h2, if_true]
  rcases goSplit (gostr "!") ((List.take i (':' :: t)).drop 1) with - | ⟨a, - | ⟨b, parts⟩⟩
  · exact ⟨_, rfl⟩
  · exact ⟨_, rfl⟩
  · rcases parts with - | ⟨p, ps⟩
    · exact ⟨_, rfl⟩
    · exact ⟨_, rfl⟩

/-- The source block returns normally exactly when the remainder is
non-empty and, if it starts with `:`, contains a space. -/
theorem parseSourceStep_ok_iff (rest : List Char) :
    (∃ v, parseSourceStep rest = .ok v) ↔
      (!rest.isEmpty &&
        (!(rest.head? = some ':' : Bool) || (goIndexOf rest (gostr " ")).isSome)) = true := by
  cases rest with
  | nil => simp [parseSourceStep_nil]
  | cons c t =>
    by_cases hc : c = ':'
    · subst hc
      rcases hidx : goIndexOf (':' :: t) (gostr " ") with - | i
      · rw [parseSourceStep_colon_noSpace hidx]
        simp
      · have h2 := goIndexOf_lt_length (by decide) hidx
        have h1 := goIndexOf_space_pos hidx (by decide)
        obtain ⟨v, hv⟩ := parseSourceStep_colon_space hidx h1 h2
        simp [hv]
    · rw [parseSourceStep_noColon hc]
      simp [hc]

/-- The source-and-command tail returns normally exactly when the source
block does (the command block is total). -/
theorem parseAfterTags_ok_iff (raw0 : List Char) (tags : IRCMessageTags) (rest : List Char) :
    (∃ r, parseAfterTags raw0 tags rest = .ok r) ↔ (∃ v, parseSourceStep rest = .ok v) := by
  constructor
  · rintro ⟨r, hr⟩
    rcases hsrc : parseSourceStep rest with e | v
    · rw [parseAfterTags, hsrc] at hr
      simp at hr
    · exact ⟨v, rfl⟩
  · rintro ⟨⟨src, raw2⟩, hv⟩
    rw [parseAfterTags, hv]
    exact ⟨_, rfl⟩

/-- C1 (amended): the parser is deterministic and, rather than total,
terminates normally exactly on the lines characterised by `goodLine`: the
empty line, and any line where a leading `@` is followed by a space, the
remainder after consuming the tag segment is non-empty, and a leading `:`
on that remainder is followed by a space; on every other line the slice or
index expression of the corresponding prefix raises a Go panic. -/
theorem parseMessage_total_iff_goodLine (raw : List Char) :
    (∃ r, parseMessage raw = .ok r) ↔ goodLine raw = true := by
  by_cases hraw : raw.length = 0
  · rw [List.length_eq_zero] at hraw
    subst hraw
    rw [parseMessage]
    simp [goodLine]
  · have hEmpty : raw.isEmpty = false := by
      cases raw
      · simp at hraw
      · rfl
    rw [parseMessage, if_neg hraw, goodLine, hEmpty]
    simp only [Bool.false_or]
    by_cases hat : raw.head? = some '@'
    · rcases hidx : goIndexOf raw (gostr " ") with - | i
      · simp only [parseTagsStep_noSpace hat hidx, hat, hidx]
        simp
      · have h2 : i < raw.length := goIndexOf_lt_length (by decide) hidx
        have h1 : 1 ≤ i := by
          cases raw with
          | nil => simp at hraw
          | cons c t =>
            have hc : c = '@' := by simpa using hat
            subst hc
            exact goIndexOf_space_pos hidx (by decide)
        simp only [parseTagsStep_space hat hidx h1 h2, hat, hidx]
        exact (parseAfterTags_ok_iff raw _ _).trans (parseSourceStep_ok_iff _)
    · simp only [parseTagsStep_noAt hat, hat]
      exact (parseAfterTags_ok_iff raw _ _).trans (parseSourceStep_ok_iff _)

/-- Each reply contributes a checklist byte below 2^8. -/
theorem parseInitCheck_lt (m : Option IRCMessage) : (parseInitCheck m).1 < 256 := by
  rcases m with - | msg
  · simp [parseInitCheck]
  · simp only [parseInitCheck]
    split_ifs <;> norm_num

/-- A bit of the folded checklist is set exactly when it was set in the
accumulator or some processed reply contributes it. -/
theorem checklistFoldFrom_testBit (k : Nat) :
    ∀ (l : List (Option IRCMessage)) (c : Nat),
      (l.foldl (fun a m => a ||| (parseInitCheck m).1) c).testBit k = true ↔
        c.testBit k = true ∨ ∃ m ∈ l, ((parseInitCheck m).1).testBit k = true := by
  intro l
  induction l with
  | nil => intro c; simp
  | cons m rest ih =>
    intro c
    rw [List.foldl_cons, ih]
    simp only [Nat.testBit_or, Bool.or_eq_true, List.mem_cons]
    constructor
    · rintro ((hc | hm) | ⟨x, hx, hb⟩)
      · exact Or.inl hc
      · exact Or.inr ⟨m, Or.inl rfl, hm⟩
      · exact Or.inr ⟨x, Or.inr hx, hb⟩
    · rintro (hc | ⟨x, rfl | hx, hb⟩)
      · exact Or.inl (Or.inl hc)
      · exact Or.inl (Or.inr hb)
      · exact Or.inr ⟨x, hx, hb⟩

/-- The folded checklist stays below 2^8. -/
theorem checklistFold_lt (l : List (Option IRCMessage)) : checklistFold l < 256 := by
  rw [checklistFold]
  have h256 : (256 : Nat) = 2 ^ 8 := by norm_num
  have h : ∀ (t : List (Option IRCMessage)) (c : Nat), c < 256 →
      (t.foldl (fun a m => a ||| (parseInitCheck m).1) c) < 256 := by
    intro t
    induction t with
    | nil => intro c hc; simpa using hc
    | cons m rest ih =>
      intro c hc
      rw [List.foldl_cons]
      refine ih _ ?_
      rw [h256]
      exact Nat.or_lt_two_pow (by rw [← h256]; exact hc) (by rw [← h256]; exact parseInitCheck_lt m)
  exact h l 0 (by norm_num)

/-- A byte equals 255 exactly when its low eight bits are all set. -/
theorem eq_255_iff_testBits {x : Nat} (hx : x < 256) :
    x = 255 ↔ ∀ k, k < 8 → x.testBit k = true := by
  constructor
  · rintro rfl
    decide
  · intro h
    refine Nat.eq_of_testBit_eq fun j => ?_
    by_cases hj : j < 8
    · interval_cases j <;> rw [h _ (by norm_num)] <;> decide
    · have hj8 : 8 ≤ j := Nat.le_of_not_lt hj
      have h2 : (2 : Nat) ^ 8 ≤ 2 ^ j := Nat.pow_le_pow_right (by norm_num) hj8
      rw [Nat.testBit_lt_two_pow (lt_of_lt_of_le (by norm_num [hx]) h2),
        Nat.testBit_lt_two_pow (lt_of_lt_of_le (by norm_num) h2)]

/-- Which checklist bit each acknowledgment category sets: bit 0 for the
capability ack, bits 1–4 for the numeric welcome replies 001–004, bits 5–6
for the MOTD lines 375 and 372, and bit 7 for the initial user state. -/
theorem testBit_parseInitCheck (msg : IRCMessage) :
    (((parseInitCheck (some msg)).1).testBit 0 = true ↔ msg.Command.Name = gostr "CAP") ∧
    (((parseInitCheck (some msg)).1).testBit 1 = true ↔ msg.Command.Name = gostr "001") ∧
    (((parseInitCheck (some msg)).1).testBit 2 = true ↔ msg.Command.Name = gostr "002") ∧
    (((parseInitCheck (some msg)).1).testBit 3 = true ↔ msg.Command.Name = gostr "003") ∧
    (((parseInitCheck (some msg)).1).testBit 4 = true ↔ msg.Command.Name = gostr "004") ∧
    (((parseInitCheck (some msg)).1).testBit 5 = true ↔ msg.Command.Name = gostr "375") ∧
    (((parseInitCheck (some msg)).1).testBit 6 = true ↔ msg.Command.Name = gostr "372") ∧
    (((parseInitCheck (some msg)).1).testBit 7 = true ↔
      msg.Command.Name = gostr "GLOBALUSERSTATE") := by
  simp only [parseInitCheck]
  split_ifs with h1 h2 h3 h4 h5 h6 h7 h8 h9
  · rw [h1]; decide
  · rw [h2]; decide
  · rw [h3]; decide
  · rw [h4]; decide
  · rw [h5]; decide
  · rw [h6]; decide
  · rw [h7]; decide
  · rw [h8]; decide
  · rw [h9.1]; decide
  · exact ⟨iff_of_false (by decide) h1, iff_of_false (by decide) h2,
      iff_of_false (by decide) h3, iff_of_false (by decide) h4,
      iff_of_false (by decide) h5, iff_of_false (by decide) h6,
      iff_of_false (by decide) h7, iff_of_false (by decide) h8⟩

/-- C5: the handshake checklist byte reaches 255 exactly when every one of
the eight acknowledgment categories (capability ack, 001, 002, 003, 004,
375, 372, and the initial user state) occurs in the observed reply sequence
— in any order, never while one is missing — and or-ing a reply's bit into
a checklist that already contains it changes nothing, so repeated replies
set no new bit. -/
theorem checklist_complete_iff_all_categories (l : List (Option IRCMessage)) :
    (checklistFold l = 255 ↔
      obs l (gostr "CAP") ∧ obs l (gostr "001") ∧ obs l (gostr "002") ∧
        obs l (gostr "003") ∧ obs l (gostr "004") ∧ obs l (gostr "375") ∧
        obs l (gostr "372") ∧ obs l (gostr "GLOBALUSERSTATE")) ∧
    (∀ (c : Nat) (m : Option IRCMessage),
      (c ||| (parseInitCheck m).1) ||| (parseInitCheck m).1 = c ||| (parseInitCheck m).1) := by
  constructor
  · have hfold : ∀ k, (checklistFold l).testBit k = true ↔
        ∃ m ∈ l, ((parseInitCheck m).1).testBit k = true := by
      intro k
      rw [checklistFold, checklistFoldFrom_testBit]
      simp
    have bridge : ∀ (k : Nat) (name : List Char),
        (∀ msg : IRCMessage,
          (((parseInitCheck (some msg)).1).testBit k = true ↔ msg.Command.Name = name)) →
        ((∃ m ∈ l, ((parseInitCheck m).1).testBit k = true) ↔ obs l name) := by
      intro k name htb
      constructor
      · rintro ⟨m, hm, hb⟩
        rcases m with - | msg
        · rw [show (parseInitCheck none).1 = 0 from rfl] at hb
          simp at hb
        · exact ⟨msg, hm, (htb msg).mp hb⟩
      · rintro ⟨msg, hm, hname⟩
        exact ⟨some msg, hm, (htb msg).mpr hname⟩
    rw [eq_255_iff_testBits (checklistFold_lt l)]
    constructor
    · intro h
      exact ⟨(bridge 0 _ fun msg => (testBit_parseInitCheck msg).1).mp
          ((hfold 0).mp (h 0 (by norm_num))),
        (bridge 1 _ fun msg => (testBit_parseInitCheck msg).2.1).mp
          ((hfold 1).mp (h 1 (by norm_num))),
        (bridge 2 _ fun msg => (testBit_parseInitCheck msg).2.2.1).mp
          ((hfold 2).mp (h 2 (by norm_num))),
        (bridge 3 _ fun msg => (testBit_parseInitCheck msg).2.2.2.1).mp
          ((hfold 3).mp (h 3 (by norm_num))),
        (bridge 4 _ fun msg => (testBit_parseInitCheck msg).2.2.2.2.1).mp
          ((hfold 4).mp (h 4 (by norm_num))),
        (bridge 5 _ fun msg => (testBit_parseInitCheck msg).2.2.2.2.2.1).mp
          ((hfold 5).mp (h 5 (by norm_num))),
        (bridge 6 _ fun msg => (testBit_parseInitCheck msg).2.2.2.2.2.2.1).mp
          ((hfold 6).mp (h 6 (by norm_num))),
        (bridge 7 _ fun msg => (testBit_parseInitCheck msg).2.2.2.2.2.2.2).mp
          ((hfold 7).mp (h 7 (by norm_num)))⟩
    · rintro ⟨hC, hn1, hn2, hn3, hn4, hn5, hn6, hG⟩ k hk
      interval_cases k
      · exact (hfold 0).mpr
          ((bridge 0 _ fun msg => (testBit_parseInitCheck msg).1).mpr hC)
      · exact (hfold 1).mpr
          ((bridge 1 _ fun msg => (testBit_parseInitCheck msg).2.1).mpr hn1)
      · exact (hfold 2).mpr
          ((bridge 2 _ fun msg => (testBit_parseInitCheck msg).2.2.1).mpr hn2)
      · exact (hfold 3).mpr
          ((bridge 3 _ fun msg => (testBit_parseInitCheck msg).2.2.2.1).mpr hn3)
      · exact (hfold 4).mpr
          ((bridge 4 _ fun msg => (testBit_parseInitCheck msg).2.2.2.2.1).mpr hn4)
      · exact (hfold 5).mpr
          ((bridge 5 _ fun msg => (testBit_parseInitCheck msg).2.2.2.2.2.1).mpr hn5)
      · exact (hfold 6).mpr
          ((bridge 6 _ fun msg => (testBit_parseInitCheck msg).2.2.2.2.2.2.1).mpr hn6)
      · exact (hfold 7).mpr
          ((bridge 7 _ fun msg => (testBit_parseInitCheck msg).2.2.2.2.2.2.2).mpr hG)
  · intro c m
    rw [Nat.or_assoc, Nat.or_self]

end Twitchgo
